import Mathlib

/-!
# Verification of the Semarang flood dashboard's computational cores

Shallow embedding of the two computational components of `src/app.py`:

* `find_nearest_station` (app.py lines 134-144): linear scan over a station
  table, tracking a running minimum of geodesic distances.  The geodesic
  distance itself is computed by an external library (`geopy`), so it is
  modelled as an abstract distance function parameter `dist`; all results
  below are proved for every such function.
* `geotiff_to_temp_png` (app.py lines 479-504): band-count dispatch turning a
  raster into an RGBA pixel grid plus geographic bounds.  numpy float
  arithmetic is modelled over `ℚ`, with `Option ℚ` tracking the NaN produced
  by the `0/0` division of the degenerate min-max rescale (`none` = NaN).
-/

namespace Semarang

/-- A row of `station_map_df`: columns `lat`, `lon`, `hover_text`
(app.py lines 127-130). -/
structure Station where
  lat : ℚ
  lon : ℚ
  hover_text : String
deriving DecidableEq

/-- Abstract model of `geopy.distance.geodesic((lat, lon), (slat, slon)).meters`:
an arbitrary function of the two coordinate pairs. -/
abbrev Dist := ℚ → ℚ → ℚ → ℚ → ℚ

/-- The comparison `dist < min_dist` where `min_dist` may still be the initial
`float('inf')` (modelled by `none`, which every finite distance is below). -/
def ltInfB (d : ℚ) : Option ℚ → Bool
  | none => true
  | some m => decide (d < m)

/-- The loop of `find_nearest_station` (app.py lines 138-143): iterate over the
rows, updating `min_dist`, `nearest_name`, `nearest_coords` when
`dist < min_dist` (strict comparison). -/
def findLoop (dist : Dist) (lat lon : ℚ) :
    List Station → Option ℚ → Option String → Option (ℚ × ℚ) →
      Option String × Option (ℚ × ℚ)
  | [], _, nm, co => (nm, co)
  | s :: rest, m, nm, co =>
      let d := dist lat lon s.lat s.lon
      if ltInfB d m then
        findLoop dist lat lon rest (some d) (some s.hover_text) (some (s.lat, s.lon))
      else
        findLoop dist lat lon rest m nm co

/-- `find_nearest_station(lat, lon, station_df)` (app.py lines 134-144):
`min_dist` starts at `float('inf')`, `nearest_name` and `nearest_coords` at
`None`; returns the pair `(nearest_name, nearest_coords)`. -/
def find_nearest_station (dist : Dist) (lat lon : ℚ) (station_df : List Station) :
    Option String × Option (ℚ × ℚ) :=
  findLoop dist lat lon station_df none none none

/-- Distance from the query point to a station, under the abstract geodesic. -/
def distTo (dist : Dist) (lat lon : ℚ) (s : Station) : ℚ :=
  dist lat lon s.lat s.lon

/-- One step of the running minimum, abstracted over the distance field
`D : Station → ℚ`: keep the challenger only on strict improvement. -/
def stepMin (D : Station → ℚ) (best t : Station) : Station :=
  if D t < D best then t else best

/-- The running minimum over a list, seeded with a current best. -/
def runMin (D : Station → ℚ) (b : Station) (l : List Station) : Station :=
  l.foldl (stepMin D) b

theorem findLoop_runMin (dist : Dist) (lat lon : ℚ) (l : List Station) :
    ∀ b : Station,
      findLoop dist lat lon l (some (distTo dist lat lon b)) (some b.hover_text)
          (some (b.lat, b.lon))
        = (some (runMin (distTo dist lat lon) b l).hover_text,
           some ((runMin (distTo dist lat lon) b l).lat,
                 (runMin (distTo dist lat lon) b l).lon)) := by
  induction l with
  | nil => intro b; rfl
  | cons s rest ih =>
      intro b
      by_cases hlt : distTo dist lat lon s < distTo dist lat lon b
      · have hcond : ltInfB (dist lat lon s.lat s.lon) (some (distTo dist lat lon b)) = true := by
          simp [ltInfB, distTo] at hlt ⊢; exact hlt
        have hstep : stepMin (distTo dist lat lon) b s = s := by
          simp [stepMin, hlt]
        calc findLoop dist lat lon (s :: rest) (some (distTo dist lat lon b))
                (some b.hover_text) (some (b.lat, b.lon))
            = findLoop dist lat lon rest (some (dist lat lon s.lat s.lon))
                (some s.hover_text) (some (s.lat, s.lon)) := by
              simp only [findLoop, hcond, if_true]
          _ = (some (runMin (distTo dist lat lon) s rest).hover_text,
               some ((runMin (distTo dist lat lon) s rest).lat,
                     (runMin (distTo dist lat lon) s rest).lon)) := ih s
          _ = _ := by
              simp only [runMin, List.foldl, hstep]
      · have hcond : ltInfB (dist lat lon s.lat s.lon) (some (distTo dist lat lon b)) = false := by
          simp [ltInfB, distTo] at hlt ⊢; exact hlt
        have hstep : stepMin (distTo dist lat lon) b s = b := by
          simp [stepMin, hlt]
        calc findLoop dist lat lon (s :: rest) (some (distTo dist lat lon b))
                (some b.hover_text) (some (b.lat, b.lon))
            = findLoop dist lat lon rest (some (distTo dist lat lon b))
                (some b.hover_text) (some (b.lat, b.lon)) := by
              simp only [findLoop, hcond, Bool.false_eq_true, if_false]
          _ = (some (runMin (distTo dist lat lon) b rest).hover_text,
               some ((runMin (distTo dist lat lon) b rest).lat,
                     (runMin (distTo dist lat lon) b rest).lon)) := ih b
          _ = _ := by
              simp only [runMin, List.foldl, hstep]

theorem runMin_char (D : Station → ℚ) (l : List Station) :
    ∀ b : Station, ∃ l1 l2,
      b :: l = l1 ++ (runMin D b l) :: l2 ∧
      (∀ t ∈ l1, D (runMin D b l) < D t) ∧
      (∀ t ∈ b :: l, D (runMin D b l) ≤ D t) := by
  induction l with
  | nil =>
      intro b
      exact ⟨[], [], rfl, by simp, by simp [runMin]⟩
  | cons s rest ih =>
      intro b
      by_cases hlt : D s < D b
      · have hrw : runMin D b (s :: rest) = runMin D s rest := by
          simp only [runMin, List.foldl, stepMin, hlt, if_pos]
        obtain ⟨l1, l2, hdec, hstrict, hmin⟩ := ih s
        rw [hrw]
        cases l1 with
        | nil =>
            simp only [List.nil_append] at hdec
            injection hdec with h1 h2
            have hw : runMin D s rest = s := h1.symm
            refine ⟨[b], rest, ?_, ?_, ?_⟩
            · simp [hw]
            · intro t ht
              simp only [List.mem_cons, List.not_mem_nil, or_false] at ht
              subst ht
              rw [hw]; exact hlt
            · intro t ht
              simp only [List.mem_cons] at ht
              rcases ht with rfl | ht
              · rw [hw]; exact le_of_lt hlt
              · exact hmin t (by simp [ht])
        | cons a l1' =>
            simp only [List.cons_append] at hdec
            injection hdec with h1 h2
            rw [← h1] at hstrict
            have hws : D (runMin D s rest) < D s := hstrict s (by simp)
            refine ⟨b :: s :: l1', l2, ?_, ?_, ?_⟩
            · simp only [List.cons_append]
              rw [← h2]
            · intro t ht
              simp only [List.mem_cons] at ht
              rcases ht with rfl | rfl | ht
              · exact lt_trans hws hlt
              · exact hws
              · exact hstrict t (by simp [ht])
            · intro t ht
              simp only [List.mem_cons] at ht
              rcases ht with rfl | ht
              · exact le_of_lt (lt_trans hws hlt)
              · exact hmin t (by simp [ht])
      · have hble : D b ≤ D s := le_of_not_lt hlt
        have hrw : runMin D b (s :: rest) = runMin D b rest := by
          simp only [runMin, List.foldl, stepMin, hlt, if_neg, if_false]
        obtain ⟨l1, l2, hdec, hstrict, hmin⟩ := ih b
        rw [hrw]
        cases l1 with
        | nil =>
            simp only [List.nil_append] at hdec
            injection hdec with h1 h2
            have hw : runMin D b rest = b := h1.symm
            refine ⟨[], s :: rest, ?_, ?_, ?_⟩
            · simp [hw]
            · intro t ht; simp at ht
            · intro t ht
              simp only [List.mem_cons] at ht
              rcases ht with rfl | rfl | ht
              · exact hmin t (by simp)
              · rw [hw]; exact hble
              · exact hmin t (by simp [ht])
        | cons a l1' =>
            simp only [List.cons_append] at hdec
            injection hdec with h1 h2
            rw [← h1] at hstrict
            have hwb : D (runMin D b rest) < D b := hstrict b (by simp)
            refine ⟨b :: s :: l1', l2, ?_, ?_, ?_⟩
            · simp only [List.cons_append]
              rw [← h2]
            · intro t ht
              simp only [List.mem_cons] at ht
              rcases ht with rfl | rfl | ht
              · exact hwb
              · exact lt_of_lt_of_le hwb hble
              · exact hstrict t (by simp [ht])
            · intro t ht
              simp only [List.mem_cons] at ht
              rcases ht with rfl | rfl | ht
              · exact le_of_lt hwb
              · exact le_of_lt (lt_of_lt_of_le hwb hble)
              · exact hmin t (by simp [ht])

/-- Characterization of `find_nearest_station` on a non-empty table: the
result is the data of the first-encountered minimal-distance station. -/
theorem nearest_char (dist : Dist) (lat lon : ℚ) (L : List Station) (h : L ≠ []) :
    ∃ l1 w l2, L = l1 ++ w :: l2 ∧
      find_nearest_station dist lat lon L = (some w.hover_text, some (w.lat, w.lon)) ∧
      (∀ t ∈ l1, distTo dist lat lon w < distTo dist lat lon t) ∧
      (∀ t ∈ L, distTo dist lat lon w ≤ distTo dist lat lon t) := by
  match L, h with
  | s0 :: rest, _ =>
      have hfind : find_nearest_station dist lat lon (s0 :: rest)
          = (some (runMin (distTo dist lat lon) s0 rest).hover_text,
             some ((runMin (distTo dist lat lon) s0 rest).lat,
                   (runMin (distTo dist lat lon) s0 rest).lon)) := by
        have h0 : find_nearest_station dist lat lon (s0 :: rest)
            = findLoop dist lat lon rest (some (distTo dist lat lon s0))
                (some s0.hover_text) (some (s0.lat, s0.lon)) := rfl
        rw [h0, findLoop_runMin]
      obtain ⟨l1, l2, hdec, hstrict, hmin⟩ := runMin_char (distTo dist lat lon) rest s0
      exact ⟨l1, runMin (distTo dist lat lon) s0 rest, l2, hdec, hfind, hstrict, hmin⟩

/-- C1: on every non-empty station collection, `find_nearest_station` returns
the name and coordinates of a station whose distance to the query point is
minimal; ties keep the first-encountered candidate (every earlier candidate is
strictly farther), and the result is invariant under reordering whenever the
minimal-distance candidate is unique. -/
theorem find_nearest_station_returns_first_minimum (dist : Dist) (lat lon : ℚ)
    (L : List Station) (h : L ≠ []) :
    ∃ l1 w l2, L = l1 ++ w :: l2 ∧
      find_nearest_station dist lat lon L = (some w.hover_text, some (w.lat, w.lon)) ∧
      (∀ t ∈ l1, distTo dist lat lon w < distTo dist lat lon t) ∧
      (∀ t ∈ L, distTo dist lat lon w ≤ distTo dist lat lon t) ∧
      (∀ L' : List Station, L.Perm L' →
        (∀ t ∈ L, distTo dist lat lon t = distTo dist lat lon w → t = w) →
        find_nearest_station dist lat lon L' = find_nearest_station dist lat lon L) := by
  obtain ⟨l1, w, l2, hdec, hfind, hstrict, hmin⟩ := nearest_char dist lat lon L h
  refine ⟨l1, w, l2, hdec, hfind, hstrict, hmin, ?_⟩
  intro L' hperm huniq
  have hL' : L' ≠ [] := by
    intro hnil
    subst hnil
    exact h hperm.eq_nil
  obtain ⟨l1', w', l2', hdec', hfind', hstrict', hmin'⟩ := nearest_char dist lat lon L' hL'
  have hwL : w ∈ L := by simp [hdec]
  have hw'L' : w' ∈ L' := by simp [hdec']
  have hw'L : w' ∈ L := hperm.mem_iff.mpr hw'L'
  have hwL' : w ∈ L' := hperm.mem_iff.mp hwL
  have h1 : distTo dist lat lon w ≤ distTo dist lat lon w' := hmin w' hw'L
  have h2 : distTo dist lat lon w' ≤ distTo dist lat lon w := hmin' w hwL'
  have hww : w' = w := huniq w' hw'L (le_antisymm h2 h1)
  rw [hfind', hfind, hww]

/-- Witness for C1 at a concrete input: two stations, the second strictly
closer (distance modelled by the station latitude). -/
theorem find_nearest_station_returns_first_minimum_witness :
    ∃ l1 w l2, ([⟨2, 0, "A"⟩, ⟨1, 0, "B"⟩] : List Station) = l1 ++ w :: l2 ∧
      find_nearest_station (fun _ _ slat _ => slat) 0 0 [⟨2, 0, "A"⟩, ⟨1, 0, "B"⟩]
        = (some w.hover_text, some (w.lat, w.lon)) ∧
      (∀ t ∈ l1, distTo (fun _ _ slat _ => slat) 0 0 w < distTo (fun _ _ slat _ => slat) 0 0 t) ∧
      (∀ t ∈ ([⟨2, 0, "A"⟩, ⟨1, 0, "B"⟩] : List Station),
        distTo (fun _ _ slat _ => slat) 0 0 w ≤ distTo (fun _ _ slat _ => slat) 0 0 t) ∧
      (∀ L' : List Station, List.Perm [⟨2, 0, "A"⟩, ⟨1, 0, "B"⟩] L' →
        (∀ t ∈ ([⟨2, 0, "A"⟩, ⟨1, 0, "B"⟩] : List Station),
          distTo (fun _ _ slat _ => slat) 0 0 t = distTo (fun _ _ slat _ => slat) 0 0 w → t = w) →
        find_nearest_station (fun _ _ slat _ => slat) 0 0 L'
          = find_nearest_station (fun _ _ slat _ => slat) 0 0 [⟨2, 0, "A"⟩, ⟨1, 0, "B"⟩]) :=
  find_nearest_station_returns_first_minimum (fun _ _ slat _ => slat) 0 0 _ (by simp)

/-- The spec's `NoCandidatesError` (error taxonomy of §7). -/
inductive MatchError
  | noCandidates
deriving DecidableEq

/-- Specification-side matcher, written from the spec's words for comparison
with the code: an empty candidate set signals `NoCandidatesError`, otherwise
the code's scan is used. -/
def nearest_spec_with_error (dist : Dist) (lat lon : ℚ) (station_df : List Station) :
    Except MatchError (Option String × Option (ℚ × ℚ)) :=
  match station_df with
  | [] => Except.error MatchError.noCandidates
  | l => Except.ok (find_nearest_station dist lat lon l)

/-- Counterexample to C3: on the empty collection the code's
`find_nearest_station` returns the plain pair `(None, None)` — a normal return
value, not a signalled `NoCandidatesError` as the spec-side matcher would
produce. -/
theorem find_nearest_station_empty_no_error_cex :
    find_nearest_station (fun _ _ _ _ => 0) 0 0 [] = (none, none) ∧
    nearest_spec_with_error (fun _ _ _ _ => 0) 0 0 []
      = Except.error MatchError.noCandidates := by
  exact ⟨rfl, rfl⟩

/-- C3 amended: on an empty candidate collection `find_nearest_station`
returns the explicit empty result `(None, None)` for every distance function
(in particular no geometric computation is performed and nothing is raised);
no `NoCandidatesError` is signalled. -/
theorem find_nearest_station_empty_returns_none_pair (dist : Dist) (lat lon : ℚ) :
    find_nearest_station dist lat lon [] = (none, none) := rfl

/-- Counterexample to C9: two distance functions whose minimal distances to the
single candidate differ (100 m vs 200 m) produce identical results of
`find_nearest_station` — so the returned value cannot carry the minimal
distance in meters. -/
theorem find_nearest_station_distance_not_in_result_cex :
    find_nearest_station (fun _ _ _ _ => 100) 0 0 [⟨0, 0, "A"⟩]
      = find_nearest_station (fun _ _ _ _ => 200) 0 0 [⟨0, 0, "A"⟩] ∧
    find_nearest_station (fun _ _ _ _ => 100) 0 0 [⟨0, 0, "A"⟩] = (some "A", some (0, 0)) ∧
    distTo (fun _ _ _ _ => 100) 0 0 ⟨0, 0, "A"⟩ ≠ distTo (fun _ _ _ _ => 200) 0 0 ⟨0, 0, "A"⟩ := by
  refine ⟨rfl, rfl, ?_⟩
  simp only [distTo]
  norm_num

/-- C9 amended: for every query point and non-empty collection the matcher
returns exactly the pair (station name, station coordinates) of a
minimal-distance candidate; the minimal distance itself, though computed by
the scan, is not part of the returned value. -/
theorem find_nearest_station_returns_name_coords_only (dist : Dist) (lat lon : ℚ)
    (L : List Station) (h : L ≠ []) :
    ∃ w ∈ L, find_nearest_station dist lat lon L = (some w.hover_text, some (w.lat, w.lon)) ∧
      ∀ t ∈ L, distTo dist lat lon w ≤ distTo dist lat lon t := by
  obtain ⟨l1, w, l2, hdec, hfind, hstrict, hmin⟩ := nearest_char dist lat lon L h
  exact ⟨w, by simp [hdec], hfind, hmin⟩

/-- Witness for the amended C9 at a concrete input. -/
theorem find_nearest_station_returns_name_coords_only_witness :
    ∃ w ∈ ([⟨3, 4, "A"⟩, ⟨1, 2, "B"⟩] : List Station),
      find_nearest_station (fun _ _ slat _ => slat) 0 0 [⟨3, 4, "A"⟩, ⟨1, 2, "B"⟩]
        = (some w.hover_text, some (w.lat, w.lon)) ∧
      ∀ t ∈ ([⟨3, 4, "A"⟩, ⟨1, 2, "B"⟩] : List Station),
        distTo (fun _ _ slat _ => slat) 0 0 w ≤ distTo (fun _ _ slat _ => slat) 0 0 t :=
  find_nearest_station_returns_name_coords_only (fun _ _ slat _ => slat) 0 0 _ (by simp)

/-! ## Raster overlay renderer (`geotiff_to_temp_png`, app.py lines 479-504) -/

/-- One raster band: a row-major grid of integer pixel values. -/
abbrev Grid := List (List ℤ)

/-- `src.bounds` of a rasterio dataset. -/
structure Bounds where
  left : ℚ
  bottom : ℚ
  right : ℚ
  top : ℚ
deriving DecidableEq

/-- A GeoTIFF as the renderer sees it: its bands (`src.count` is the number of
bands, `src.read k` the k-th band), its no-data sentinel (`src.nodata`, which
may be absent) and its geographic bounds. -/
structure Raster where
  bands : List Grid
  nodata : Option ℤ
  bounds : Bounds

/-- An RGBA pixel of the produced image. -/
structure RGBA where
  r : ℕ
  g : ℕ
  b : ℕ
  a : ℕ
deriving DecidableEq

/-- `astype(np.uint8)` on an integer value: numpy wraps modulo 256. -/
def u8ofInt (v : ℤ) : ℕ := (v % 256).toNat

/-- One row of the 4-band branch: bands 1-4 become R,G,B,A channel values
(each cast with `astype(np.uint8)`); numpy stacking stops at the shortest. -/
def rowRGBA4 : List ℤ → List ℤ → List ℤ → List ℤ → List RGBA
  | x :: xs, y :: ys, z :: zs, w :: ws =>
      ⟨u8ofInt x, u8ofInt y, u8ofInt z, u8ofInt w⟩ :: rowRGBA4 xs ys zs ws
  | _, _, _, _ => []

/-- The 4-band branch (app.py lines 483-486): `src.read([1,2,3,4])`,
transpose, `astype(np.uint8)`, interpreted as RGBA. -/
def gridRGBA4 : Grid → Grid → Grid → Grid → List (List RGBA)
  | x :: xs, y :: ys, z :: zs, w :: ws => rowRGBA4 x y z w :: gridRGBA4 xs ys zs ws
  | _, _, _, _ => []

/-- One row of the 3-band branch: bands 1-3 as R,G,B and
`convert("RGBA")` synthesizing a fully opaque alpha channel. -/
def rowRGBA3 : List ℤ → List ℤ → List ℤ → List RGBA
  | x :: xs, y :: ys, z :: zs =>
      ⟨u8ofInt x, u8ofInt y, u8ofInt z, 255⟩ :: rowRGBA3 xs ys zs
  | _, _, _ => []

/-- The 3-band branch (app.py lines 487-490). -/
def gridRGBA3 : Grid → Grid → Grid → List (List RGBA)
  | x :: xs, y :: ys, z :: zs => rowRGBA3 x y z :: gridRGBA3 xs ys zs
  | _, _, _ => []

/-- `np.where(arr == src.nodata, 0, arr)` (app.py line 493); when
`src.nodata` is `None` the comparison is elementwise false and the array is
unchanged. -/
def replaceNodata (nd : Option ℤ) (g : Grid) : Grid :=
  match nd with
  | none => g
  | some v => g.map (fun row => row.map (fun x => if x = v then 0 else x))

/-- `arr.min()` over the whole (replaced) band. -/
def gridMin (g : Grid) : ℤ :=
  match g.flatten with
  | [] => 0
  | x :: xs => xs.foldl min x

/-- `arr.max()` over the whole (replaced) band. -/
def gridMax (g : Grid) : ℤ :=
  match g.flatten with
  | [] => 0
  | x :: xs => xs.foldl max x

/-- `(v - arr.min()) / (arr.max() - arr.min()) * 255` in float arithmetic,
modelled exactly over `ℚ`; when `max = min` the division is `0/0`, whose
float result is NaN, modelled by `none`. -/
def scaleVal (mn mx v : ℤ) : Option ℚ :=
  if mx = mn then none
  else some (((v : ℚ) - (mn : ℚ)) / ((mx : ℚ) - (mn : ℚ)) * 255)

/-- `astype(np.uint8)` on the scaled float: truncation for the in-range
values produced by the min-max rescale; numpy's cast of NaN to uint8 is
formally unspecified and yields 0 on the reference platform, which is the
behaviour modelled here. -/
def u8ofFloat : Option ℚ → ℕ
  | none => 0
  | some q => (⌊q⌋).toNat

/-- `convert("RGBA")` of a grayscale value followed by the zero-transparency
pass (app.py lines 495-499): value 0 becomes fully transparent, every other
value an opaque gray. -/
def grayPixelRGBA (n : ℕ) : RGBA :=
  if n = 0 then ⟨0, 0, 0, 0⟩ else ⟨n, n, n, 255⟩

/-- The scaled float array of the single-band branch (app.py lines 493-494),
before the uint8 cast: no-data replaced by 0, then min-max rescale using the
minimum and maximum of the replaced array itself. -/
def singleBandScaled (nd : Option ℤ) (g : Grid) : List (List (Option ℚ)) :=
  (replaceNodata nd g).map (fun row =>
    row.map (scaleVal (gridMin (replaceNodata nd g)) (gridMax (replaceNodata nd g))))

/-- The full single-band branch (app.py lines 492-499). -/
def singleBandRender (nd : Option ℤ) (g : Grid) : List (List RGBA) :=
  (singleBandScaled nd g).map (fun row => row.map (fun q => grayPixelRGBA (u8ofFloat q)))

/-- `geotiff_to_temp_png` (app.py lines 479-504): dispatch on `src.count`
(`>= 4` reads bands 1-4 as RGBA, `== 3` reads bands 1-3 as RGB plus opaque
alpha, anything else falls into the single-band branch on band 1), returning
the pixel grid of the written PNG together with `src.bounds`. -/
def geotiff_to_temp_png (r : Raster) : List (List RGBA) × Bounds :=
  let px :=
    if 4 ≤ r.bands.length then
      gridRGBA4 (r.bands.getD 0 []) (r.bands.getD 1 []) (r.bands.getD 2 []) (r.bands.getD 3 [])
    else if r.bands.length = 3 then
      gridRGBA3 (r.bands.getD 0 []) (r.bands.getD 1 []) (r.bands.getD 2 [])
    else
      singleBandRender r.nodata (r.bands.getD 0 [])
  (px, r.bounds)

/-- Band value at row `i`, column `j`. -/
def bandAt (g : Grid) (i j : ℕ) : Option ℤ :=
  (g.get? i).bind (fun row => row.get? j)

/-- Output pixel at row `i`, column `j`. -/
def pixelAt (px : List (List RGBA)) (i j : ℕ) : Option RGBA :=
  (px.get? i).bind (fun row => row.get? j)

/-- The spec's §8 example raster: single band `[[0,10],[20,30]]`, no-data 0. -/
def c2raster : Raster := ⟨[[[0, 10], [20, 30]]], some 0, ⟨0, 0, 1, 1⟩⟩

/-- Counterexample to C2: on the spec's own example the rescale does NOT use
min = 10 (the minimum over non-sentinel values); the code takes `arr.min()`
after the sentinel has been replaced by 0, so min = 0, and the pixels that the
claim puts at 0 and 127 are actually 85 and 170. -/
theorem geotiff_minmax_includes_replaced_zeros_cex :
    gridMin (replaceNodata (some 0) [[0, 10], [20, 30]]) = 0 ∧
    pixelAt (geotiff_to_temp_png c2raster).1 0 1 = some ⟨85, 85, 85, 255⟩ ∧
    pixelAt (geotiff_to_temp_png c2raster).1 1 0 = some ⟨170, 170, 170, 255⟩ ∧
    (85 : ℕ) ≠ 0 ∧ (170 : ℕ) ≠ 127 := by
  refine ⟨by decide, ?_, ?_, by decide, by decide⟩ <;>
    · norm_num [geotiff_to_temp_png, singleBandRender, singleBandScaled, replaceNodata,
        gridMin, gridMax, scaleVal, u8ofFloat, grayPixelRGBA, List.getD, List.foldl,
        pixelAt, c2raster]
      decide

/-- C2 amended: the renderer replaces no-data pixels with 0 and rescales with
the minimum and maximum of the resulting array (the replaced zeros included):
for values `[[0,10],[20,30]]` with no-data 0 it uses min = 0 and max = 30 and
produces `[[0 (transparent), 85], [170, 255]]`. -/
theorem geotiff_single_band_minmax_after_replacement :
    gridMin (replaceNodata (some 0) [[0, 10], [20, 30]]) = 0 ∧
    gridMax (replaceNodata (some 0) [[0, 10], [20, 30]]) = 30 ∧
    (geotiff_to_temp_png c2raster).1
      = [[⟨0, 0, 0, 0⟩, ⟨85, 85, 85, 255⟩], [⟨170, 170, 170, 255⟩, ⟨255, 255, 255, 255⟩]] := by
  refine ⟨by decide, by decide, ?_⟩
  norm_num [geotiff_to_temp_png, singleBandRender, singleBandScaled, replaceNodata,
    gridMin, gridMax, scaleVal, u8ofFloat, grayPixelRGBA, List.getD, List.foldl, c2raster]
  decide

/-- A constant (non-no-data) single-band raster. -/
def c5raster : Raster := ⟨[[[5, 5], [5, 5]]], none, ⟨0, 0, 1, 1⟩⟩

/-- C5: on a constant single-band raster the min-max rescale is the `0/0`
division: every entry of the scaled float buffer is NaN (`none`).  The code
has no special case for `min = max`; the all-transparent grid in the second
conjunct arises only from numpy's (formally unspecified) NaN-to-uint8 cast
yielding 0 and the zero-transparency pass, not from a documented fallback. -/
theorem geotiff_constant_band_nan_in_scaled_buffer :
    singleBandScaled none [[5, 5], [5, 5]] = [[none, none], [none, none]] ∧
    (geotiff_to_temp_png c5raster).1
      = [[⟨0, 0, 0, 0⟩, ⟨0, 0, 0, 0⟩], [⟨0, 0, 0, 0⟩, ⟨0, 0, 0, 0⟩]] := by
  exact ⟨rfl, rfl⟩

theorem foldl_min_const (c : ℤ) : ∀ xs : List ℤ, (∀ x ∈ xs, x = c) → xs.foldl min c = c := by
  intro xs
  induction xs with
  | nil => intro _; rfl
  | cons x xs ih =>
      intro hall
      have hx : x = c := hall x (by simp)
      have : ∀ y ∈ xs, y = c := fun y hy => hall y (by simp [hy])
      simp only [List.foldl, hx, min_self]
      exact ih this

theorem foldl_max_const (c : ℤ) : ∀ xs : List ℤ, (∀ x ∈ xs, x = c) → xs.foldl max c = c := by
  intro xs
  induction xs with
  | nil => intro _; rfl
  | cons x xs ih =>
      intro hall
      have hx : x = c := hall x (by simp)
      have : ∀ y ∈ xs, y = c := fun y hy => hall y (by simp [hy])
      simp only [List.foldl, hx, max_self]
      exact ih this

theorem gridMin_eq_gridMax_of_const (g : Grid) (c : ℤ)
    (hall : ∀ row ∈ g, ∀ v ∈ row, v = c) : gridMin g = gridMax g := by
  have hflat : ∀ y ∈ g.flatten, y = c := by
    intro y hy
    obtain ⟨row, hrow, hyr⟩ := List.mem_flatten.mp hy
    exact hall row hrow y hyr
  unfold gridMin gridMax
  cases hj : g.flatten with
  | nil => rfl
  | cons x xs =>
      have hx : x = c := hflat x (by rw [hj]; simp)
      have hxs : ∀ y ∈ xs, y = c := fun y hy => hflat y (by rw [hj]; simp [hy])
      rw [hx]
      show List.foldl min c xs = List.foldl max c xs
      rw [foldl_min_const c xs hxs, foldl_max_const c xs hxs]

/-- C6: rendering a single-band raster all of whose values equal the no-data
sentinel yields an entirely transparent pixel grid (every value is replaced by
0, min = max makes every scaled value NaN, the uint8 cast sends NaN to 0, and
exact-zero pixels are made transparent). -/
theorem geotiff_all_nodata_renders_transparent (nd : ℤ) (g : Grid) (bd : Bounds)
    (hall : ∀ row ∈ g, ∀ v ∈ row, v = nd) :
    ∀ row ∈ (geotiff_to_temp_png ⟨[g], some nd, bd⟩).1, ∀ p ∈ row,
      p = (⟨0, 0, 0, 0⟩ : RGBA) := by
  have hdisp : (geotiff_to_temp_png ⟨[g], some nd, bd⟩).1 = singleBandRender (some nd) g := rfl
  rw [hdisp]
  have hzero : ∀ row' ∈ replaceNodata (some nd) g, ∀ v ∈ row', v = 0 := by
    intro row' hrow' v hv
    simp only [replaceNodata, List.mem_map] at hrow'
    obtain ⟨row0, hrow0, rfl⟩ := hrow'
    simp only [List.mem_map] at hv
    obtain ⟨v0, hv0, rfl⟩ := hv
    have hv0nd : v0 = nd := hall row0 hrow0 v0 hv0
    simp [hv0nd]
  have hmm : gridMin (replaceNodata (some nd) g) = gridMax (replaceNodata (some nd) g) :=
    gridMin_eq_gridMax_of_const _ 0 hzero
  intro row hrow p hp
  simp only [singleBandRender, singleBandScaled, List.mem_map] at hrow
  obtain ⟨row1, ⟨row2, hrow2, rfl⟩, rfl⟩ := hrow
  simp only [List.mem_map] at hp
  obtain ⟨q, ⟨v, hv, rfl⟩, rfl⟩ := hp
  have hscale : scaleVal (gridMin (replaceNodata (some nd) g))
      (gridMax (replaceNodata (some nd) g)) v = none := by
    simp [scaleVal, hmm]
  rw [hscale]
  rfl

/-- Witness for C6 at a concrete all-sentinel raster: the first pixel of the
rendered grid is fully transparent. -/
theorem geotiff_all_nodata_renders_transparent_witness :
    ((geotiff_to_temp_png ⟨[[[7, 7], [7, 7]]], some 7, ⟨0, 0, 1, 1⟩⟩).1.getD 0 []).getD 0
        ⟨9, 9, 9, 9⟩
      = (⟨0, 0, 0, 0⟩ : RGBA) :=
  geotiff_all_nodata_renders_transparent 7 [[7, 7], [7, 7]] ⟨0, 0, 1, 1⟩ (by decide)
    ((geotiff_to_temp_png ⟨[[[7, 7], [7, 7]]], some 7, ⟨0, 0, 1, 1⟩⟩).1.getD 0 []) (by decide)
    (((geotiff_to_temp_png ⟨[[[7, 7], [7, 7]]], some 7, ⟨0, 0, 1, 1⟩⟩).1.getD 0 []).getD 0
      ⟨9, 9, 9, 9⟩) (by decide)

theorem rowRGBA4_get (j : ℕ) : ∀ (xs ys zs ws : List ℤ) (x y z w : ℤ),
    xs.get? j = some x → ys.get? j = some y → zs.get? j = some z → ws.get? j = some w →
    (rowRGBA4 xs ys zs ws).get? j = some ⟨u8ofInt x, u8ofInt y, u8ofInt z, u8ofInt w⟩ := by
  induction j with
  | zero =>
      intro xs ys zs ws x y z w hx hy hz hw
      cases xs with
      | nil => simp at hx
      | cons x0 xs' =>
        cases ys with
        | nil => simp at hy
        | cons y0 ys' =>
          cases zs with
          | nil => simp at hz
          | cons z0 zs' =>
            cases ws with
            | nil => simp at hw
            | cons w0 ws' =>
              simp only [List.get?_cons_zero, Option.some.injEq] at hx hy hz hw
              subst hx; subst hy; subst hz; subst hw
              rfl
  | succ j ih =>
      intro xs ys zs ws x y z w hx hy hz hw
      cases xs with
      | nil => simp at hx
      | cons x0 xs' =>
        cases ys with
        | nil => simp at hy
        | cons y0 ys' =>
          cases zs with
          | nil => simp at hz
          | cons z0 zs' =>
            cases ws with
            | nil => simp at hw
            | cons w0 ws' =>
              simp only [List.get?_cons_succ] at hx hy hz hw
              simp only [rowRGBA4, List.get?_cons_succ]
              exact ih xs' ys' zs' ws' x y z w hx hy hz hw

theorem gridRGBA4_get (i : ℕ) : ∀ (A B C D : Grid) (ra rb rc rd : List ℤ),
    A.get? i = some ra → B.get? i = some rb → C.get? i = some rc → D.get? i = some rd →
    (gridRGBA4 A B C D).get? i = some (rowRGBA4 ra rb rc rd) := by
  induction i with
  | zero =>
      intro A B C D ra rb rc rd ha hb hc hd
      cases A with
      | nil => simp at ha
      | cons a0 A' =>
        cases B with
        | nil => simp at hb
        | cons b0 B' =>
          cases C with
          | nil => simp at hc
          | cons c0 C' =>
            cases D with
            | nil => simp at hd
            | cons d0 D' =>
              simp only [List.get?_cons_zero, Option.some.injEq] at ha hb hc hd
              subst ha; subst hb; subst hc; subst hd
              rfl
  | succ i ih =>
      intro A B C D ra rb rc rd ha hb hc hd
      cases A with
      | nil => simp at ha
      | cons a0 A' =>
        cases B with
        | nil => simp at hb
        | cons b0 B' =>
          cases C with
          | nil => simp at hc
          | cons c0 C' =>
            cases D with
            | nil => simp at hd
            | cons d0 D' =>
              simp only [List.get?_cons_succ] at ha hb hc hd
              simp only [gridRGBA4, List.get?_cons_succ]
              exact ih A' B' C' D' ra rb rc rd ha hb hc hd

/-- C7 amended: on a raster read through the 4-band branch, every output pixel
channel is the corresponding input band value reduced modulo 256 by
`astype(np.uint8)` (no rescaling); for values already in `[0, 255]` this is
the exact input value.  Reduction modulo 256 is not clamping (see the
counterexample at value 300). -/
theorem geotiff_four_band_pixel_identity (r : Raster) (h4 : 4 ≤ r.bands.length)
    (i j : ℕ) (x y z w : ℤ)
    (hx : bandAt (r.bands.getD 0 []) i j = some x)
    (hy : bandAt (r.bands.getD 1 []) i j = some y)
    (hz : bandAt (r.bands.getD 2 []) i j = some z)
    (hw : bandAt (r.bands.getD 3 []) i j = some w) :
    pixelAt (geotiff_to_temp_png r).1 i j
      = some ⟨u8ofInt x, u8ofInt y, u8ofInt z, u8ofInt w⟩ ∧
    (∀ v : ℤ, 0 ≤ v → v < 256 → u8ofInt v = v.toNat) := by
  constructor
  · have hpx : (geotiff_to_temp_png r).1
        = gridRGBA4 (r.bands.getD 0 []) (r.bands.getD 1 []) (r.bands.getD 2 [])
            (r.bands.getD 3 []) := by
      simp only [geotiff_to_temp_png, if_pos h4]
    rw [hpx]
    obtain ⟨ra, hra, hraj⟩ := Option.bind_eq_some.mp hx
    obtain ⟨rb, hrb, hrbj⟩ := Option.bind_eq_some.mp hy
    obtain ⟨rc, hrc, hrcj⟩ := Option.bind_eq_some.mp hz
    obtain ⟨rd, hrd, hrdj⟩ := Option.bind_eq_some.mp hw
    have hrow := gridRGBA4_get i _ _ _ _ ra rb rc rd hra hrb hrc hrd
    simp only [pixelAt, hrow, Option.bind_some]
    exact rowRGBA4_get j ra rb rc rd x y z w hraj hrbj hrcj hrdj
  · intro v h0 h256
    simp only [u8ofInt, Int.emod_eq_of_lt h0 h256]

/-- A 4-band raster with an out-of-range red value. -/
def c7raster : Raster := ⟨[[[300]], [[1]], [[2]], [[3]]], none, ⟨0, 0, 1, 1⟩⟩

/-- Witness for the amended C7 at the concrete 4-band raster. -/
theorem geotiff_four_band_pixel_identity_witness :
    pixelAt (geotiff_to_temp_png c7raster).1 0 0
      = some ⟨u8ofInt 300, u8ofInt 1, u8ofInt 2, u8ofInt 3⟩ ∧
    (∀ v : ℤ, 0 ≤ v → v < 256 → u8ofInt v = v.toNat) :=
  geotiff_four_band_pixel_identity c7raster (by decide) 0 0 300 1 2 3 rfl rfl rfl rfl

/-- Counterexample to C7: the input red value 300 is rendered as
`300 % 256 = 44`, not clamped to 255: `astype(np.uint8)` wraps, it does not
clamp. -/
theorem geotiff_four_band_not_clamped_cex :
    pixelAt (geotiff_to_temp_png c7raster).1 0 0 = some ⟨44, 1, 2, 3⟩ ∧
    u8ofInt 300 = 44 ∧ (44 : ℕ) ≠ 255 := by
  exact ⟨rfl, rfl, by decide⟩

/-- C10: the renderer rejects no band count.  A raster with 5 or more bands is
rendered from bands 1-4 alone (the remaining bands are silently ignored), and
a 2-band raster falls into the single-band branch and is rendered from band 1
alone as a min-max-rescaled grayscale image. -/
theorem geotiff_never_rejects_band_count (r : Raster) :
    (5 ≤ r.bands.length →
      (geotiff_to_temp_png r).1
        = gridRGBA4 (r.bands.getD 0 []) (r.bands.getD 1 []) (r.bands.getD 2 [])
            (r.bands.getD 3 [])) ∧
    (r.bands.length = 2 →
      (geotiff_to_temp_png r).1 = singleBandRender r.nodata (r.bands.getD 0 [])) := by
  constructor
  · intro h5
    have h4 : 4 ≤ r.bands.length := by omega
    simp only [geotiff_to_temp_png, if_pos h4]
  · intro h2
    have h4 : ¬ 4 ≤ r.bands.length := by omega
    have h3 : ¬ r.bands.length = 3 := by omega
    simp only [geotiff_to_temp_png, if_neg h4, if_neg h3]

/-- Witness for C10: a concrete 5-band raster is rendered from its first four
bands, and a concrete 2-band raster from its first band. -/
theorem geotiff_never_rejects_band_count_witness :
    (geotiff_to_temp_png ⟨[[[1]], [[2]], [[3]], [[4]], [[9]]], none, ⟨0, 0, 1, 1⟩⟩).1
      = gridRGBA4 [[1]] [[2]] [[3]] [[4]] ∧
    (geotiff_to_temp_png ⟨[[[3], [9]], [[7], [7]]], none, ⟨0, 0, 1, 1⟩⟩).1
      = singleBandRender none [[3], [9]] :=
  ⟨(geotiff_never_rejects_band_count
      ⟨[[[1]], [[2]], [[3]], [[4]], [[9]]], none, ⟨0, 0, 1, 1⟩⟩).1 (by decide),
   (geotiff_never_rejects_band_count
      ⟨[[[3], [9]], [[7], [7]]], none, ⟨0, 0, 1, 1⟩⟩).2 (by decide)⟩

/-- The spec's `UnsupportedBandCountError` (§4.2, §7). -/
inductive RenderError
  | unsupportedBandCount
deriving DecidableEq

/-- Specification-side renderer dispatch, written from the spec's words
(§4.2) for comparison with the code: band counts 2 and ≥ 5 signal
`UnsupportedBandCountError`, the supported counts defer to the renderer. -/
def geotiff_spec_with_error (r : Raster) :
    Except RenderError (List (List RGBA) × Bounds) :=
  if r.bands.length = 2 ∨ 5 ≤ r.bands.length then
    Except.error RenderError.unsupportedBandCount
  else
    Except.ok (geotiff_to_temp_png r)

/-- A 5-band raster (one pixel per band). -/
def c4five : Raster := ⟨[[[1]], [[2]], [[3]], [[4]], [[9]]], none, ⟨0, 0, 1, 1⟩⟩

/-- A 2-band raster. -/
def c4two : Raster := ⟨[[[3], [9]], [[7], [7]]], none, ⟨0, 0, 1, 1⟩⟩

/-- Counterexample to C4: where the spec-side dispatch signals
`UnsupportedBandCountError` for a 5-band raster, the code's
`geotiff_to_temp_png` produces an image (from bands 1-4). -/
theorem geotiff_band_count_no_error_cex :
    geotiff_spec_with_error c4five = Except.error RenderError.unsupportedBandCount ∧
    (geotiff_to_temp_png c4five).1 = [[⟨1, 2, 3, 4⟩]] := by
  exact ⟨rfl, rfl⟩

/-- C4 amended: no band count is rejected and no error is signalled: the
5-band raster is rendered as the RGBA image of its bands 1-4 and the 2-band
raster through the single-band branch on its band 1 (here, a 1x2 grayscale
with the minimum pixel transparent and the maximum white). -/
theorem geotiff_band_count_always_renders :
    (geotiff_to_temp_png c4five).1 = gridRGBA4 [[1]] [[2]] [[3]] [[4]] ∧
    (geotiff_to_temp_png c4two).1 = singleBandRender none [[3], [9]] ∧
    (geotiff_to_temp_png c4two).1 = [[⟨0, 0, 0, 0⟩], [⟨255, 255, 255, 255⟩]] := by
  refine ⟨rfl, rfl, ?_⟩
  norm_num [geotiff_to_temp_png, singleBandRender, singleBandScaled, replaceNodata,
    gridMin, gridMax, scaleVal, u8ofFloat, grayPixelRGBA, List.getD, List.foldl, c4two]
  decide

/-- The `@st.cache_data` decorator on `geotiff_to_temp_png` (app.py lines
478 and 682), modelled as a process-wide memo table keyed by the file path;
`fs` maps a path to the raster stored in that file. -/
def geotiff_to_temp_png_cached (fs : String → Raster)
    (cache : List (String × (List (List RGBA) × Bounds))) (tif_path : String) :
    (List (List RGBA) × Bounds) × List (String × (List (List RGBA) × Bounds)) :=
  match List.lookup tif_path cache with
  | some v => (v, cache)
  | none =>
      ((geotiff_to_temp_png (fs tif_path)),
       (tif_path, geotiff_to_temp_png (fs tif_path)) :: cache)

/-- C8: rendering the same raster file path a second time is a cache hit and
returns exactly the first call's (image, bounds) result, whatever the cache
already contained. -/
theorem geotiff_cached_second_render_identical (fs : String → Raster)
    (cache : List (String × (List (List RGBA) × Bounds))) (p : String) :
    (geotiff_to_temp_png_cached fs (geotiff_to_temp_png_cached fs cache p).2 p).1
      = (geotiff_to_temp_png_cached fs cache p).1 := by
  rcases h : List.lookup p cache with _ | v
  · simp only [geotiff_to_temp_png_cached, h]
    simp [List.lookup]
  · simp only [geotiff_to_temp_png_cached, h]
